import Mathlib

/-!
Shallow embedding of the python-rezparser repository (lexer, preprocessor,
expression parser and constant-expression evaluator) in Lean 4, used to check
the natural-language specification against the code.

Conventions used throughout:
* Python `str.casefold` is modelled by `String.toLower`; the two agree on the
  ASCII identifiers appearing in Rez sources.
* Python byte strings are `List Nat` (each entry < 256); Mac OS Roman agrees
  with ASCII on all bytes used here, so encoding a character is `Char.toNat`.
* Python `//` and `%` are `Int.fdiv` and `Int.fmod` (floor division, remainder
  with the divisor's sign), exactly Python's semantics.
* Loops of the source that are not structurally terminating are modelled either
  with an explicit fuel parameter (running out of fuel is the distinguished
  error `outOfFuel` / result `none`, never a real result of the code) or as a
  single-iteration step function that is then iterated.
* Exceptions are modelled with `Except`; the error type only records the kind
  of the exception, not the message text.
-/

namespace Rezparser

/-- Models Python `str.casefold` (agrees with lowercasing on ASCII names).
Implemented over the character list so that it reduces definitionally. -/
def casefold (s : String) : String := String.mk (s.data.map Char.toLower)

/-- Python `str.upper` (ASCII), over the character list. -/
def upperStr (s : String) : String := String.mk (s.data.map Char.toUpper)

/-- Python `str.startswith`, over the character lists. -/
def strStartsWith (s pre : String) : Bool := pre.data.isPrefixOf s.data

/-- Python `str.endswith`, over the character lists. -/
def strEndsWith (s suf : String) : Bool := suf.data.isSuffixOf s.data

/-- `RezLexer.keywords` from `lexer.py` (keyword identifiers, lowercase). -/
def rezKeywords : List String :=
  ["as", "change", "data", "delete", "enum", "include", "not", "type", "read",
   "resource", "to",
   "bit", "bitstring", "boolean", "byte", "char", "cstring", "nibble",
   "integer", "long", "longint", "point", "pstring", "rect", "string", "word",
   "wstring",
   "binary", "decimal", "hex", "key", "literal", "octal", "unsigned",
   "align", "array", "case", "fill", "switch", "wide",
   "appheap", "changed", "compressed", "locked", "nonpreload", "nonpurgeable",
   "preload", "protected", "purgeable", "sysheap", "unchanged", "uncompressed",
   "unlocked", "unprotected",
   "defined"]

/-- A lexer token (`common.Token`). `basic` covers all tokens that carry only a
type tag and lexeme text; the `PP_IFDEF`, `PP_DEFINE` and `PP_UNDEF` directive
tokens additionally carry their sub-lexed payloads, mirrored by dedicated
constructors. Source positions are not modelled. -/
inductive Token where
  | basic (type : String) (value : String)
  | ppIfdefDir (ifdefType : String) (name : String)
  | ppDefine (name : String) (value : List Token)
  | ppUndef (name : String)

/-- The `type` attribute of a token. -/
def Token.type : Token → String
  | .basic t _ => t
  | .ppIfdefDir _ _ => "PP_IFDEF"
  | .ppDefine _ _ => "PP_DEFINE"
  | .ppUndef _ => "PP_UNDEF"

/-- The `value` attribute of a token (payload constructors are only ever
inspected through their named fields in the source). -/
def Token.value : Token → String
  | .basic _ v => v
  | .ppIfdefDir _ _ => ""
  | .ppDefine _ _ => ""
  | .ppUndef _ => ""

/-- The macro table: Python dict from casefolded names to replacement token
lists, modelled as an association list with dict-style insert-or-replace. -/
abbrev MacroTable := List (String × List Token)

/-- Dict lookup `self.macros[name]` (as an `Option`). -/
def mlookup (m : MacroTable) (k : String) : Option (List Token) :=
  match m with
  | [] => none
  | (k', v) :: rest => if k' = k then some v else mlookup rest k

/-- Dict membership `name in self.macros`. -/
def mcontains (m : MacroTable) (k : String) : Bool :=
  (mlookup m k).isSome

/-- Dict assignment `self.macros[name] = value` (replace or append). -/
def minsert (m : MacroTable) (k : String) (v : List Token) : MacroTable :=
  match m with
  | [] => [(k, v)]
  | (k', v') :: rest =>
    if k' = k then (k, v) :: rest else (k', v') :: minsert rest k v

/-- Dict removal `self.macros.pop(name, None)` (absence is not an error). -/
def merase (m : MacroTable) (k : String) : MacroTable :=
  match m with
  | [] => []
  | (k', v') :: rest => if k' = k then rest else (k', v') :: merase rest k

/-! ### Python integer parsing (`int(s, base)`) -/

/-- Value of a single digit character, as used by Python `int` (0-9, a-f, A-F). -/
def digitVal (c : Char) : Option Nat :=
  if '0' ≤ c ∧ c ≤ '9' then some (c.toNat - '0'.toNat)
  else if 'a' ≤ c ∧ c ≤ 'f' then some (c.toNat - 'a'.toNat + 10)
  else if 'A' ≤ c ∧ c ≤ 'F' then some (c.toNat - 'A'.toNat + 10)
  else none

/-- Value of a non-empty digit string in the given base, `none` on any invalid
digit (Python raises `ValueError`). -/
def digitsVal (base : Nat) : List Char → Option Nat
  | [] => none
  | cs => go cs 0
where
  go : List Char → Nat → Option Nat
    | [], acc => some acc
    | c :: rest, acc =>
      match digitVal c with
      | some d => if d < base then go rest (acc * base + d) else none
      | none => none

/-- Python `int(s, base)` restricted to an optional sign followed by digits
(the only shapes the lexer can produce); `none` models `ValueError`. -/
def pyInt (s : String) (base : Nat) : Option Int :=
  match s.toList with
  | '-' :: rest => (digitsVal base rest).map (fun n => -(n : Int))
  | '+' :: rest => (digitsVal base rest).map (fun n => (n : Int))
  | cs => (digitsVal base cs).map (fun n => (n : Int))

/-! ### `parser._unescape_string`

The Python function scans for backslashes with `str.find`, keeping a cursor
`lastpos` into the string and a `bytearray` accumulator.  One iteration of its
`while` loop is `unescapeStep`; the whole function is the iteration of that
step, with explicit fuel (`unescapeRun`). -/

/-- Mac OS Roman encoding of a character, restricted to ASCII where it agrees
with the code point (the inputs relevant to the claims are all ASCII). -/
def encodeMacRoman (cs : List Char) : List Nat := cs.map Char.toNat

/-- `s.find(c, start)`: index of the first occurrence of `c` at or after
`start`, or `none` (Python returns -1). -/
def strFind (s : List Char) (c : Char) (start : Nat) : Option Nat :=
  match List.findIdx? (· = c) (s.drop start) with
  | some i => some (start + i)
  | none => none

/-- Python slice `s[a:b]` of a character list (non-negative indices). -/
def subChars (s : List Char) (a b : Nat) : List Char := (s.take b).drop a

/-- `bytearray.append(x)` accepts only `0 ≤ x < 256`; otherwise Python raises
`ValueError`. -/
def appendByte (ret : List Nat) (v : Int) : Option (List Nat) :=
  if 0 ≤ v ∧ v ≤ 255 then some (ret ++ [v.toNat]) else none

/-- The escape map of `_unescape_string`'s final `else` branch
(`{"t": 0x09, ...}.get(c, ord(c))`), including the Rez CR/LF swap. -/
def escapeByte (c : Char) : Nat :=
  if c = 't' then 0x09
  else if c = 'b' then 0x08
  else if c = 'r' then 0x0a
  else if c = 'n' then 0x0d
  else if c = 'f' then 0x0c
  else if c = 'v' then 0x0b
  else if c = '?' then 0x7f
  else if c = '\\' then 0x5c
  else if c = '\'' then 0x27
  else if c = '\"' then 0x22
  else c.toNat

/-- Result of one iteration of `_unescape_string`'s loop: continue with an
updated cursor and accumulator, finish with the decoded bytes, or raise
`ValueError`. -/
inductive UnescapeStep where
  | again (lastpos : Nat) (ret : List Nat)
  | done (result : List Nat)
  | err

/-- One iteration of the `while pos != -1` loop of `_unescape_string`.
Note that when the character after `\0` is none of `B b D d X x 0-9`, no
branch of the source updates `lastpos`, so the iteration leaves the state
unchanged. -/
def unescapeStep (s : List Char) (lastpos : Nat) (ret : List Nat) : UnescapeStep :=
  match strFind s '\\' lastpos with
  | none => .done (ret ++ encodeMacRoman (s.drop lastpos))
  | some pos =>
    let ret := ret ++ encodeMacRoman (subChars s lastpos pos)
    if pos + 1 ≥ s.length then .err
    else
      let c := s.getD (pos + 1) ' '
      if c = '0' then
        if pos + 2 ≥ s.length then .err
        else
          let c2 := s.getD (pos + 2) ' '
          if c2 = 'B' ∨ c2 = 'b' then
            if pos + 11 > s.length then .err
            else
              match pyInt (String.mk (subChars s (pos + 3) (pos + 11))) 2 with
              | some v =>
                match appendByte ret v with
                | some ret' => .again (pos + 11) ret'
                | none => .err
              | none => .err
          else if c2 = 'D' ∨ c2 = 'd' then
            if pos + 6 > s.length then .err
            else
              match pyInt (String.mk (subChars s (pos + 3) (pos + 6))) 10 with
              | some v =>
                match appendByte ret v with
                | some ret' => .again (pos + 6) ret'
                | none => .err
              | none => .err
          else if c2 = 'X' ∨ c2 = 'x' then
            if pos + 5 > s.length then .err
            else
              match pyInt (String.mk (subChars s (pos + 3) (pos + 5))) 16 with
              | some v =>
                match appendByte ret v with
                | some ret' => .again (pos + 5) ret'
                | none => .err
              | none => .err
          else if '0' ≤ c2 ∧ c2 ≤ '9' then
            if pos + 4 > s.length then .err
            else
              match pyInt (String.mk (subChars s (pos + 1) (pos + 4))) 8 with
              | some v =>
                match appendByte ret v with
                | some ret' => .again (pos + 4) ret'
                | none => .err
              | none => .err
          else
            -- No branch taken: `lastpos` is not updated by the source here.
            .again lastpos ret
      else if c = '$' then
        if pos + 4 > s.length then .err
        else
          match pyInt (String.mk (subChars s (pos + 2) (pos + 4))) 16 with
          | some v =>
            match appendByte ret v with
            | some ret' => .again (pos + 4) ret'
            | none => .err
          | none => .err
      else if c = '1' ∨ c = '2' ∨ c = '3' then
        if pos + 4 > s.length then .err
        else
          match pyInt (String.mk (subChars s (pos + 1) (pos + 4))) 8 with
          | some v =>
            match appendByte ret v with
            | some ret' => .again (pos + 4) ret'
            | none => .err
          | none => .err
      else
        match appendByte ret (escapeByte c : Int) with
        | some ret' => .again (pos + 2) ret'
        | none => .err

/-- Iterate `unescapeStep` with fuel.  `none` means the fuel ran out (the
source loop has not finished after that many iterations); `some (.ok bs)` is a
normal return and `some (.error ())` a `ValueError`. -/
def unescapeRun : Nat → List Char → Nat → List Nat → Option (Except Unit (List Nat))
  | 0, _, _, _ => none
  | fuel + 1, s, lastpos, ret =>
    match unescapeStep s lastpos ret with
    | .done r => some (.ok r)
    | .err => some (.error ())
    | .again l r => unescapeRun fuel s l r

/-- `_unescape_string(s)` with fuel `s.length + 1`, which is enough for every
input on which the source terminates (each completed iteration advances the
cursor by at least 2). -/
def unescapeString (s : String) : Option (Except Unit (List Nat)) :=
  unescapeRun (s.length + 1) s.toList 0 []

/-! ### Expression AST (`ast.py`, integer expressions) -/

/-- Integer expression AST nodes from `ast.py` (the subset reachable from the
expression grammar without Rez functions, attributes and label subscripts,
which no claim exercises). -/
inductive Expr where
  | intLiteral (value : Int)
  | intSymbol (name : String)
  | negative (value : Expr)
  | boolNot (value : Expr)
  | bitNot (value : Expr)
  | multiply (left right : Expr)
  | divide (left right : Expr)
  | modulo (left right : Expr)
  | add (left right : Expr)
  | subtract (left right : Expr)
  | bitShiftLeft (left right : Expr)
  | bitShiftRight (left right : Expr)
  | lessThan (left right : Expr)
  | greaterThan (left right : Expr)
  | lessThanEqual (left right : Expr)
  | greaterThanEqual (left right : Expr)
  | equal (left right : Expr)
  | notEqual (left right : Expr)
  | bitAnd (left right : Expr)
  | bitOr (left right : Expr)
  | bitXor (left right : Expr)
  | boolAnd (left right : Expr)
  | boolOr (left right : Expr)

/-! ### Evaluator (`eval.py`) -/

/-- Errors of `Evaluator.eval` (kinds only). `zeroDivision` is Python's
`ZeroDivisionError` from `//` or `%` by zero; `unknownSymbol` is the
`ValueError` for a symbol missing from the (empty, default) symbol table. -/
inductive EvalErr where
  | zeroDivision
  | unknownSymbol (name : String)
deriving DecidableEq, Repr

/-- Python `a // b` (raises on `b = 0`, floor division otherwise). -/
def pyFloorDiv (a b : Int) : Except EvalErr Int :=
  if b = 0 then .error .zeroDivision else .ok (a.fdiv b)

/-- Python `a % b` (raises on `b = 0`, remainder with the divisor's sign
otherwise, which is `Int.fmod`). -/
def pyModOp (a b : Int) : Except EvalErr Int :=
  if b = 0 then .error .zeroDivision else .ok (a.fmod b)

/-- `Evaluator.eval` from `eval.py` on integer expressions, with the default
environment (empty symbol table).  Division and modulo follow the source
literally: `-(-left // abs(right)) if left < 0 else left // abs(right)` and
the same shape with `%`; shifts yield 0 for a negative right operand; `&&` and
`||` short-circuit with Python truthiness (returning the left value itself
when it decides the result). -/
def evalE : Expr → Except EvalErr Int
  | .intLiteral v => .ok v
  | .intSymbol n => .error (.unknownSymbol n)
  | .negative e => do
    let v ← evalE e
    .ok (-v)
  | .boolNot e => do
    let v ← evalE e
    .ok (if v = 0 then 1 else 0)
  | .bitNot e => do
    let v ← evalE e
    .ok (-v - 1)
  | .multiply l r => do
    let left ← evalE l
    let right ← evalE r
    .ok (left * right)
  | .divide l r => do
    let left ← evalE l
    let right ← evalE r
    if left < 0 then
      (pyFloorDiv (-left) |right|).map (fun q => -q)
    else
      pyFloorDiv left |right|
  | .modulo l r => do
    let left ← evalE l
    let right ← evalE r
    if left < 0 then
      (pyModOp (-left) |right|).map (fun q => -q)
    else
      pyModOp left |right|
  | .add l r => do
    let left ← evalE l
    let right ← evalE r
    .ok (left + right)
  | .subtract l r => do
    let left ← evalE l
    let right ← evalE r
    .ok (left - right)
  | .bitShiftLeft l r => do
    let left ← evalE l
    let right ← evalE r
    .ok (if right < 0 then 0 else left * 2 ^ right.toNat)
  | .bitShiftRight l r => do
    let left ← evalE l
    let right ← evalE r
    .ok (if right < 0 then 0 else left.fdiv (2 ^ right.toNat))
  | .lessThan l r => do
    let left ← evalE l
    let right ← evalE r
    .ok (if left < right then 1 else 0)
  | .greaterThan l r => do
    let left ← evalE l
    let right ← evalE r
    .ok (if right < left then 1 else 0)
  | .lessThanEqual l r => do
    let left ← evalE l
    let right ← evalE r
    .ok (if left ≤ right then 1 else 0)
  | .greaterThanEqual l r => do
    let left ← evalE l
    let right ← evalE r
    .ok (if right ≤ left then 1 else 0)
  | .equal l r => do
    let left ← evalE l
    let right ← evalE r
    .ok (if left = right then 1 else 0)
  | .notEqual l r => do
    let left ← evalE l
    let right ← evalE r
    .ok (if left = right then 0 else 1)
  | .bitAnd l r => do
    let left ← evalE l
    let right ← evalE r
    .ok (Int.land left right)
  | .bitOr l r => do
    let left ← evalE l
    let right ← evalE r
    .ok (Int.lor left right)
  | .bitXor l r => do
    let left ← evalE l
    let right ← evalE r
    .ok (Int.xor left right)
  | .boolAnd l r => do
    let left ← evalE l
    if left = 0 then .ok left else evalE r
  | .boolOr l r => do
    let left ← evalE l
    if left = 0 then evalE r else .ok left

/-! ### `Evaluator.eval_bitfield` and its wrappers -/

/-- `int.from_bytes(bs, "big", signed=False)`. -/
def fromBytesBE (bs : List Nat) : Nat := bs.foldl (fun acc b => acc * 256 + b) 0

/-- Python list slice `l[a:b]` with integer endpoints and step 1 (negative
endpoints count from the end, both are clamped to the list bounds). -/
def pySlice (l : List Nat) (a b : Int) : List Nat :=
  let n : Int := l.length
  let conv : Int → Nat := fun i =>
    (if i < 0 then max (i + n) 0 else min i n).toNat
  (l.take (conv b)).drop (conv a)

/-- `Evaluator.eval_bitfield(start, offset, length)` against resource data
`data`.  `divmod(x, 8)` is `(fdiv, fmod)`; the shift `>> (8 - endbit)` and the
masking `& mask` act on the non-negative `int.from_bytes` result; the final
sign fix is the source's `if num > mask//2: num -= mask`.  (`startbit` is
computed but never used by the source.)  A negative `length` would make
`1 << length` raise, modelled as `none`. -/
def eval_bitfield (data : List Nat) (start offset length : Int) : Option Int :=
  let startbyte := (start + offset).fdiv 8
  let endbyte := (start + offset + length).fdiv 8
  let endbit := (start + offset + length).fmod 8
  if length < 0 then none
  else
    let mask : Int := 2 ^ length.toNat - 1
    let raw : Nat := fromBytesBE (pySlice data startbyte (endbyte + 1))
    let num : Int := Int.land ((raw : Int).fdiv (2 ^ (8 - endbit).toNat)) mask
    some (if num > mask.fdiv 2 then num - mask else num)

/-- `Evaluator.eval_byte(start)` = `eval_bitfield(start, 0, 8)`. -/
def eval_byte (data : List Nat) (start : Int) : Option Int :=
  eval_bitfield data start 0 8

/-- `Evaluator.eval_word(start)` = `eval_bitfield(start, 0, 16)`. -/
def eval_word (data : List Nat) (start : Int) : Option Int :=
  eval_bitfield data start 0 16

/-- `Evaluator.eval_long(start)` = `eval_bitfield(start, 0, 32)`. -/
def eval_long (data : List Nat) (start : Int) : Option Int :=
  eval_bitfield data start 0 32

/-! ### Expression grammar (`parser.py`, `start_expr` side)

The PLY grammar `int_expression_boolor → … → int_expression_simple` is a
standard unambiguous precedence cascade with left-associative binary levels;
it is embedded as a recursive-descent parser over the token list, with one
level per grammar rule.  Constructs no claim exercises (Rez `$$` functions,
resource attributes, label subscripts, string expressions) parse to the
distinguished error `unsupported`. -/

/-- Errors of the parser embedding.  `parseError` is the source's `ParseError`
exception, `valueError` an uncaught `ValueError` (e.g. from `int("", 16)` in
`p_intlit`), `unsupported` marks grammar constructs outside the embedded
fragment, and `outOfFuel` exhausted fuel. -/
inductive ParseErr where
  | parseError
  | valueError
  | unsupported
  | outOfFuel
deriving DecidableEq, Repr

/-- The token types reduced by the `intlit` rule. -/
def intlitTypes : List String :=
  ["INTLIT_DEC", "INTLIT_HEX", "INTLIT_OCT", "INTLIT_BIN", "INTLIT_CHAR"]

/-- `RezParser.p_intlit`: decode an integer-literal lexeme.  Character
literals strip the quotes, unescape and read big-endian (a `ValueError` from
the unescape is converted to `ParseError`); `$` and `0x/0X` parse hex after
the prefix, `0b/0B` binary, a leading `0` octal, else decimal (`ValueError`
from `int` propagates unconverted). -/
def p_intlit (v : String) : Except ParseErr Expr :=
  if strStartsWith v "'" then
    match unescapeRun (v.length + 1) (v.toList.drop 1).dropLast 0 [] with
    | some (.ok bs) => .ok (.intLiteral (fromBytesBE bs))
    | some (.error _) => .error .parseError
    | none => .error .outOfFuel
  else if strStartsWith v "$" then
    match pyInt (String.mk (v.toList.drop 1)) 16 with
    | some n => .ok (.intLiteral n)
    | none => .error .valueError
  else if strStartsWith v "0X" ∨ strStartsWith v "0x" then
    match pyInt (String.mk (v.toList.drop 2)) 16 with
    | some n => .ok (.intLiteral n)
    | none => .error .valueError
  else if strStartsWith v "0B" ∨ strStartsWith v "0b" then
    match pyInt (String.mk (v.toList.drop 2)) 2 with
    | some n => .ok (.intLiteral n)
    | none => .error .valueError
  else if strStartsWith v "0" then
    match pyInt v 8 with
    | some n => .ok (.intLiteral n)
    | none => .error .valueError
  else
    match pyInt v 10 with
    | some n => .ok (.intLiteral n)
    | none => .error .valueError

/-- Binary-operator token types of each precedence level (level numbers follow
the grammar: 2 = muldiv … 11 = boolor). -/
def opTypesAt (lev : Nat) : List String :=
  if lev = 2 then ["MULTIPLY", "DIVIDE", "MODULO"]
  else if lev = 3 then ["PLUS", "MINUS"]
  else if lev = 4 then ["SHIFTLEFT", "SHIFTRIGHT"]
  else if lev = 5 then ["LESS", "GREATER", "LESSEQUAL", "GREATEREQUAL"]
  else if lev = 6 then ["EQUAL", "NOTEQUAL"]
  else if lev = 7 then ["BITAND"]
  else if lev = 8 then ["BITXOR"]
  else if lev = 9 then ["BITOR"]
  else if lev = 10 then ["BOOLAND"]
  else if lev = 11 then ["BOOLOR"]
  else []

/-- AST constructor for a binary-operator token type (as in the
`p_int_expression_*` actions). -/
def mkBinOp (ty : String) (l r : Expr) : Expr :=
  if ty = "MULTIPLY" then .multiply l r
  else if ty = "DIVIDE" then .divide l r
  else if ty = "MODULO" then .modulo l r
  else if ty = "PLUS" then .add l r
  else if ty = "MINUS" then .subtract l r
  else if ty = "SHIFTLEFT" then .bitShiftLeft l r
  else if ty = "SHIFTRIGHT" then .bitShiftRight l r
  else if ty = "LESS" then .lessThan l r
  else if ty = "GREATER" then .greaterThan l r
  else if ty = "LESSEQUAL" then .lessThanEqual l r
  else if ty = "GREATEREQUAL" then .greaterThanEqual l r
  else if ty = "EQUAL" then .equal l r
  else if ty = "NOTEQUAL" then .notEqual l r
  else if ty = "BITAND" then .bitAnd l r
  else if ty = "BITXOR" then .bitXor l r
  else if ty = "BITOR" then .bitOr l r
  else if ty = "BOOLAND" then .boolAnd l r
  else .boolOr l r

/-- Token types of the `resource_attribute` rule and `$$` functions (parsed by
the real grammar but outside the embedded fragment). -/
def unsupportedAtomTypes : List String :=
  ["COMPRESSED", "UNCOMPRESSED", "CHANGED", "UNCHANGED", "PRELOAD",
   "NONPRELOAD", "PROTECTED", "UNPROTECTED", "LOCKED", "UNLOCKED",
   "PURGEABLE", "NONPURGEABLE", "SYSHEAP", "APPHEAP",
   "STRINGLIT_TEXT", "STRINGLIT_HEX"]

/-- Parsing mode: descend into the grammar level's first nonterminal, or fold
further binary operators of the level into an already-parsed left operand. -/
inductive PMode where
  | atom (lev : Nat)
  | fold (lev : Nat) (left : Expr)

/-- Recursive-descent embedding of the expression precedence cascade.
Level 0 is `int_expression_simple`, level 1 `int_expression_unaryop`, levels
2–11 the left-associative binary rules up to `int_expression_boolor`. -/
def parseE : Nat → PMode → List Token → Except ParseErr (Expr × List Token)
  | 0, _, _ => .error .outOfFuel
  | fuel + 1, .atom 0, ts =>
    match ts with
    | .basic ty v :: rest =>
      if ty ∈ intlitTypes then do
        let e ← p_intlit v
        .ok (e, rest)
      else if ty = "IDENTIFIER" then
        .ok (.intSymbol v, rest)
      else if ty = "LPAREN" then do
        let (e, rest') ← parseE fuel (.atom 11) rest
        match rest' with
        | .basic "RPAREN" _ :: rest'' => .ok (e, rest'')
        | _ => .error .parseError
      else if ty ∈ unsupportedAtomTypes ∨ strStartsWith ty "FUN_" then
        .error .unsupported
      else .error .parseError
    | _ => .error .parseError
  | fuel + 1, .atom 1, ts =>
    match ts with
    | .basic "MINUS" _ :: rest =>
      (parseE fuel (.atom 1) rest).map (fun p => (.negative p.1, p.2))
    | .basic "BOOLNOT" _ :: rest =>
      (parseE fuel (.atom 1) rest).map (fun p => (.boolNot p.1, p.2))
    | .basic "BITNOT" _ :: rest =>
      (parseE fuel (.atom 1) rest).map (fun p => (.bitNot p.1, p.2))
    | _ => parseE fuel (.atom 0) ts
  | fuel + 1, .atom (lev + 2), ts => do
    let (l, rest) ← parseE fuel (.atom (lev + 1)) ts
    parseE fuel (.fold (lev + 2) l) rest
  | fuel + 1, .fold lev left, ts =>
    match ts with
    | .basic ty _ :: rest =>
      if ty ∈ opTypesAt lev then do
        let (r, rest') ← parseE fuel (.atom (lev - 1)) rest
        parseE fuel (.fold lev (mkBinOp ty left r)) rest'
      else .ok (left, ts)
    | _ => .ok (left, ts)

/-- `RezParser.parse_expr` (the `start_expr` entry point): parse the whole
token list as one expression; leftover tokens are a syntax error. -/
def parseExprTokens (ts : List Token) : Except ParseErr Expr :=
  match parseE (16 * ts.length + 32) (.atom 11) ts with
  | .ok (e, []) => .ok e
  | .ok _ => .error .parseError
  | .error e => .error e

/-! ### Preprocessor (`preprocessor.py`) -/

/-- Errors raised by the preprocessor model.  All `PreprocessError` variants
are distinguished by kind; `indexError` / `noneType` model the uncaught
Python exceptions reachable from `list.pop()` on an empty list and attribute
access on `None`; `unsupportedDirective` marks `PP_INCLUDE` / `PP_PRINTF`,
whose handling (include stack, printf) is outside the model and outside every
claim. -/
inductive PPErr where
  | outOfFuel
  | maxExpansionDepth
  | indexError
  | noneType
  | elifOutsideConditional
  | elseOutsideConditional
  | endifOutsideConditional
  | definedSyntax
  | nestedEnum
  | enumSyntax
  | unsupportedDirective (ty : String)
  | parse (e : ParseErr)
  | eval (e : EvalErr)
deriving DecidableEq, Repr

/-- `RezPreprocessor._eval_expression`: parse the token list as an expression
and evaluate it. -/
def evalExpression (ts : List Token) : Except PPErr Int := do
  let e ← (parseExprTokens ts).mapError PPErr.parse
  (evalE e).mapError PPErr.eval

/-- An entry of `self.expansion_stack`: a pending token or the
`"expansion_end"` sentinel. -/
inductive ExpEntry where
  | tok (t : Token)
  | expansionEnd

/-- The mutable state of `RezPreprocessor` relevant to the claims (the include
stack is collapsed to the single base lexer, modelled as the remaining input
token list; `sys_include_path` / `include_path` are treated separately with
`state_for_include`). -/
structure PPState where
  macros : MacroTable
  expansionStack : List ExpEntry
  macroStack : List String
  ifStack : List String
  ifState : String
  enumState : String
  enumCounter : Int
  enumConstantName : String
  enumConstantTokens : List Token
  enumConstantDepth : Int
  input : List Token

/-- The predefined macros set up by `RezPreprocessor.__init__` (Rez mode,
`derez=False`). -/
def initMacros : MacroTable :=
  [("true", [Token.basic "INTLIT_DEC" "1"]),
   ("false", [Token.basic "INTLIT_DEC" "0"]),
   ("rez", [Token.basic "INTLIT_DEC" "1"]),
   ("derez", [Token.basic "INTLIT_DEC" "0"])]

/-- Initial preprocessor state over an input token stream. -/
def initPPState (input : List Token) : PPState :=
  { macros := initMacros
    expansionStack := []
    macroStack := []
    ifStack := []
    ifState := "active"
    enumState := "inactive"
    enumCounter := 0
    enumConstantName := ""
    enumConstantTokens := []
    enumConstantDepth := 0
    input := input }

/-- Result of one iteration of `_token_internal`'s `while True` loop:
continue looping, yield a token (or `None` at end of input), or raise. -/
inductive TIStep where
  | again (st : PPState)
  | yield (t : Option Token) (st : PPState)
  | err (e : PPErr)

/-- The body of `_token_internal` after a token has been obtained (from the
expansion stack or the lexer): macro-expand an identifier when the
conditional state is `active` or `waiting` and expansion is enabled.  The
depth check precedes the table lookup in the source, so it fires for *any*
identifier once the macro stack is deeper than 100. -/
def handleTok (expand : Bool) (t : Token) (st : PPState) : TIStep :=
  if t.type = "IDENTIFIER" ∧ (st.ifState = "active" ∨ st.ifState = "waiting") ∧ expand then
    let name := casefold t.value
    if st.macroStack.length > 100 then .err .maxExpansionDepth
    else
      match mlookup st.macros name with
      | some repl =>
        .again { st with expansionStack := repl.map ExpEntry.tok ++ [ExpEntry.expansionEnd] ++ st.expansionStack, macroStack := st.macroStack ++ [name] }
      | none => .yield (some t) st
  else .yield (some t) st

/-- One iteration of `_token_internal`'s loop: pop the pending-expansion
stack first (handling the end-of-expansion sentinel), else pull from the
input; `None` at the end of the base input is yielded to the caller. -/
def tokenInternalStep (expand : Bool) (st : PPState) : TIStep :=
  match st.expansionStack with
  | ExpEntry.expansionEnd :: rest =>
    if st.macroStack.isEmpty then .err .indexError
    else .again { st with expansionStack := rest, macroStack := st.macroStack.dropLast }
  | ExpEntry.tok t :: rest => handleTok expand t { st with expansionStack := rest }
  | [] =>
    match st.input with
    | [] => .yield none st
    | t :: rest => handleTok expand t { st with input := rest }

/-- `RezPreprocessor._token_internal`, as the fuelled iteration of
`tokenInternalStep`. -/
def tokenInternal : Nat → Bool → PPState → Except PPErr (Option Token × PPState)
  | 0, _, _ => .error .outOfFuel
  | fuel + 1, expand, st =>
    match tokenInternalStep expand st with
    | .again st' => tokenInternal fuel expand st'
    | .yield t st' => .ok (t, st')
    | .err e => .error e

/-- `n`-fold iteration of `tokenInternalStep`, keeping the intermediate state
visible (`Sum.inl` = still looping after `n` iterations). -/
def tokenInternalIter : Nat → Bool → PPState → Sum PPState (Except PPErr (Option Token × PPState))
  | 0, _, st => .inl st
  | n + 1, expand, st =>
    match tokenInternalStep expand st with
    | .again st' => tokenInternalIter n expand st'
    | .yield t st' => .inr (.ok (t, st'))
    | .err e => .inr (.error e)

/-- The condition-collection loop of the `PP_IF`/`PP_ELIF` branch of
`RezPreprocessor.token`: gather tokens until `NEWLINE` or `SEMICOLON`,
rewriting `defined name` / `defined(name)` (scanned without macro expansion)
to a `1`/`0` literal. -/
def collectCond : Nat → PPState → List Token → Except PPErr (List Token × PPState)
  | 0, _, _ => .error .outOfFuel
  | fuel + 1, st0, acc => do
    let (t?, st) ← tokenInternal fuel true st0
    match t? with
    | none => .error .noneType
    | some t =>
      if t.type = "NEWLINE" ∨ t.type = "SEMICOLON" then .ok (acc, st)
      else if t.type = "DEFINED" then do
        let (t1?, st) ← tokenInternal fuel false st
        match t1? with
        | none => .error .noneType
        | some t1 =>
          if t1.type = "LPAREN" then do
            let (t2?, st) ← tokenInternal fuel false st
            match t2? with
            | none => .error .noneType
            | some t2 =>
              if t2.type = "IDENTIFIER" ∨ casefold t2.type ∈ rezKeywords then do
                let (t3?, st) ← tokenInternal fuel false st
                match t3? with
                | none => .error .noneType
                | some t3 =>
                  if t3.type = "RPAREN" then
                    collectCond fuel st (acc ++ [Token.basic "INTLIT_DEC"
                      (if mcontains st.macros (casefold t2.value) then "1" else "0")])
                  else .error .definedSyntax
              else .error .definedSyntax
          else if t1.type = "IDENTIFIER" ∨ casefold t1.type ∈ rezKeywords then
            collectCond fuel st (acc ++ [Token.basic "INTLIT_DEC"
              (if mcontains st.macros (casefold t1.value) then "1" else "0")])
          else .error .definedSyntax
      else collectCond fuel st (acc ++ [t])

/-- The enum-rewrite mini state machine (the `elif self.enum_state !=
"inactive"` branch of `RezPreprocessor.token`).  Note that in state `equals`
only a top-level comma terminates the explicit value: any other token —
including `}` and `;` — is appended to the value buffer (braces adjusting the
nesting depth), and the dead state `value` is never entered. -/
def enumMachine (tok : Token) (ty : String) (st : PPState) : Except PPErr PPState :=
  if st.enumState = "enum" then
    if ty = "IDENTIFIER" then .ok { st with enumState := "type_name" }
    else if ty = "LBRACE" then .ok { st with enumState := "next" }
    else .error .enumSyntax
  else if st.enumState = "type_name" then
    if ty = "LBRACE" then .ok { st with enumState := "next" }
    else .error .enumSyntax
  else if st.enumState = "next" then
    if ty = "IDENTIFIER" then
      .ok { st with enumConstantName := casefold tok.value, enumState := "name" }
    else if ty = "RBRACE" then .ok { st with enumState := "end" }
    else .error .enumSyntax
  else if st.enumState = "name" then
    if ty = "ASSIGN" then
      .ok { st with enumState := "equals", enumConstantTokens := [], enumConstantDepth := 0 }
    else if ty = "COMMA" ∨ ty = "RBRACE" then
      let repl := [Token.basic "INTLIT_DEC" (toString st.enumCounter)]
      let st1 := { st with macros := minsert st.macros st.enumConstantName repl }
      if ty = "COMMA" then
        .ok { st1 with enumCounter := st1.enumCounter + 1, enumState := "next" }
      else .ok { st1 with enumState := "end" }
    else .error .enumSyntax
  else if st.enumState = "equals" then
    if ty = "COMMA" ∧ st.enumConstantDepth = 0 then do
      let v ← evalExpression st.enumConstantTokens
      let st1 := { st with enumCounter := v }
      let repl := [Token.basic "INTLIT_DEC" (toString st1.enumCounter)]
      let st2 := { st1 with macros := minsert st1.macros st1.enumConstantName repl }
      .ok { st2 with enumCounter := st2.enumCounter + 1, enumState := "next" }
    else
      let st1 := { st with enumConstantTokens := st.enumConstantTokens ++ [tok] }
      if ty = "LPAREN" ∨ ty = "LBRACKET" ∨ ty = "LBRACE" then
        .ok { st1 with enumConstantDepth := st1.enumConstantDepth + 1 }
      else if ty = "RPAREN" ∨ ty = "RBRACKET" ∨ ty = "RBRACE" then
        .ok { st1 with enumConstantDepth := st1.enumConstantDepth - 1 }
      else .ok st1
  else if st.enumState = "value" then
    if ty = "COMMA" then
      .ok { st with enumCounter := st.enumCounter + 1, enumState := "next" }
    else if ty = "RBRACE" then .ok { st with enumState := "end" }
    else .error .enumSyntax
  else if st.enumState = "end" then
    if ty = "SEMICOLON" then
      .ok { st with enumState := "inactive", enumCounter := 0, enumConstantName := "", enumConstantTokens := [], enumConstantDepth := 0 }
    else .error .enumSyntax
  else .ok st

/-- Result of dispatching one token in `RezPreprocessor.token`'s `while True`
loop: `again` is Python's `continue`, `emit` a `return tok`, `err` a raise. -/
inductive PPTokStep where
  | again (st : PPState)
  | emit (t : Token) (st : PPState)
  | err (e : PPErr)

/-- The dispatch body of `RezPreprocessor.token` for one obtained token.
Branch order follows the source: conditional directives first (processed in
every conditional state), then the skip of all other tokens while the state
is not `active` (also dropping `NEWLINE`/`PP_EMPTY`), then define/undef, then
the enum rewrite, and finally plain emission.  `fuel` is consumed only by the
condition collection of `PP_IF`/`PP_ELIF`. -/
def ppDispatch (fuel : Nat) (tok : Token) (st : PPState) : PPTokStep :=
  match tok with
  | .ppIfdefDir kind name =>
    let cond := xor (mcontains st.macros (casefold name)) (kind == "ifndef")
    let st := { st with ifStack := st.ifStack ++ [st.ifState] }
    if st.ifStack.getLast? ≠ some "active" then .again { st with ifState := "outer_inactive" }
    else if cond then .again { st with ifState := "active" }
    else .again { st with ifState := "waiting" }
  | .ppDefine name value =>
    if st.ifState ≠ "active" then .again st
    else .again { st with macros := minsert st.macros (casefold name) value }
  | .ppUndef name =>
    if st.ifState ≠ "active" then .again st
    else .again { st with macros := merase st.macros (casefold name) }
  | .basic ty v =>
    if ty = "PP_IF" ∨ ty = "PP_ELIF" then
      if ty = "PP_ELIF" ∧ st.ifStack.isEmpty then .err .elifOutsideConditional
      else if ty = "PP_IF" ∧ st.ifState ≠ "active" then
        .again { st with ifStack := st.ifStack ++ [st.ifState], ifState := "outer_inactive" }
      else if ty = "PP_ELIF" ∧ (st.ifState = "done" ∨ st.ifState = "outer_inactive") then
        .again st
      else
        match collectCond fuel st [] with
        | .error e => .err e
        | .ok (condTokens, st) =>
          match evalExpression condTokens with
          | .error e => .err e
          | .ok condVal =>
            let cond := condVal ≠ 0
            if ty = "PP_IF" then
              let newState := if cond then "active" else "waiting"
              .again { st with ifStack := st.ifStack ++ [st.ifState], ifState := newState }
            else if st.ifState = "waiting" ∧ cond then
              .again { st with ifState := "active" }
            else .again st
    else if ty = "PP_ELSE" then
      if st.ifStack.isEmpty then .err .elseOutsideConditional
      else if st.ifState = "outer_inactive" then .again st
      else if st.ifState = "waiting" then .again { st with ifState := "active" }
      else .again { st with ifState := "done" }
    else if ty = "PP_ENDIF" then
      if st.ifStack.isEmpty then .err .endifOutsideConditional
      else .again { st with ifState := st.ifStack.getLast?.getD "active", ifStack := st.ifStack.dropLast }
    else if st.ifState ≠ "active" ∨ ty = "NEWLINE" ∨ ty = "PP_EMPTY" then
      .again st
    else if ty = "PP_INCLUDE" ∨ ty = "PP_PRINTF" then
      .err (.unsupportedDirective ty)
    else if ty = "ENUM" then
      if st.enumState ≠ "inactive" then .err .nestedEnum
      else .emit (Token.basic ty v) { st with enumState := "enum", enumCounter := 0 }
    else if st.enumState ≠ "inactive" then
      match enumMachine (Token.basic ty v) ty st with
      | .error e => .err e
      | .ok st' => .emit (Token.basic ty v) st'
    else .emit (Token.basic ty v) st

/-- `RezPreprocessor.token`: pull tokens through `_token_internal` and run
the dispatch loop until a token is emitted, the input ends, or an error is
raised. -/
def ppToken : Nat → PPState → Except PPErr (Option Token × PPState)
  | 0, _ => .error .outOfFuel
  | fuel + 1, st0 => do
    let (t?, st) ← tokenInternal fuel true st0
    match t? with
    | none => .ok (none, st)
    | some tok =>
      match ppDispatch fuel tok st with
      | .again st' => ppToken fuel st'
      | .emit t st' => .ok (some t, st')
      | .err e => .error e

/-- Drain the preprocessor: the full emitted token stream and the final state
(what the parser sees when pulling tokens until `None`). -/
def ppAll : Nat → PPState → Except PPErr (List Token × PPState)
  | 0, _ => .error .outOfFuel
  | fuel + 1, st => do
    let (t?, st') ← ppToken fuel st
    match t? with
    | none => .ok ([], st')
    | some t => do
      let (rest, st'') ← ppAll fuel st'
      .ok (t :: rest, st'')

/-! ### File grammar fragment (`parser.py`, `start_file` side)

The claims only exercise the `type_statement` production with simple fields,
so the embedding covers exactly the productions reachable from that statement
(`resource_spec_typedef`, `fields`, `field`, `simple_field_modifiers_opt`,
`simple_field`, `simple_type`, labels and stray semicolons), with the
`p_field` modifier-validation action reproduced literally.  All other
statements and field kinds report `unsupported`. -/

/-- `ast.NumericFieldType` / `ast.StringFieldType` and friends; the enum
members of `ast.py` are identified by their key strings (`"decimal"`,
`"byte"`, …). -/
inductive FieldType where
  | booleanField
  | numericField (signed : Bool) (base : String) (numType : String) (size : Option Expr)
  | charField
  | stringField (format : String) (strType : String) (length : Option Expr)
  | pointField
  | rectField

/-- `ast.Field` variants reachable in the fragment: `Label` and
`SimpleField{type, value, symbolic_constants, is_key}`. -/
inductive Field where
  | label (name : String)
  | simpleField (fieldType : FieldType) (value : Option Expr)
      (symbolicConstants : List (String × Option Expr)) (isKey : Bool)

/-- `ast.ResourceSpecTypeDef` (id ranges are outside the fragment). -/
structure TypeDefSpec where
  type : Expr
  id : Option Expr

/-- `ast.Type` statement (`fields` xor `from_spec`). -/
inductive Stmt where
  | typeStmt (spec : TypeDefSpec) (fields : Option (List Field))
      (fromSpec : Option (Expr × Option Expr))

/-- `ast.File`. -/
structure RezFile where
  statements : List Stmt

/-- Fuel that always suffices for `parseE` on a token list (the precedence
cascade descends at most 13 levels between consuming two tokens). -/
def exprFuel (ts : List Token) : Nat := 16 * ts.length + 32

/-- `int_expression` within a larger production (returns the remainder). -/
def parseIntExpr (ts : List Token) : Except ParseErr (Expr × List Token) :=
  parseE (exprFuel ts) (.atom 11) ts

/-- Token types reduced by `simple_field_modifier`. -/
def fieldModifierTypes : List String :=
  ["KEY", "UNSIGNED", "BINARY", "OCTAL", "DECIMAL", "HEX", "LITERAL"]

/-- `simple_field_modifiers_opt`: collect leading modifier lexemes. -/
def takeModifiers : List Token → (List String × List Token)
  | Token.basic ty v :: rest =>
    if ty ∈ fieldModifierTypes then
      let (ms, r) := takeModifiers (rest)
      (v :: ms, r)
    else ([], Token.basic ty v :: rest)
  | ts => ([], ts)

/-- Simple types whose token is the whole `simple_type` (no size). -/
def simpleTypeTokens : List String :=
  ["BOOLEAN", "BYTE", "INT", "INTEGER", "LONGINT", "CHAR", "POINT", "RECT"]

/-- `string_type_name` tokens. -/
def stringTypeTokens : List String := ["STRING", "CSTRING", "PSTRING", "WSTRING"]

/-- `simple_type`: a type-name lexeme plus optional bracketed size. -/
def parseSimpleType : List Token → Except ParseErr ((String × Option Expr) × List Token)
  | Token.basic ty v :: rest =>
    if ty ∈ simpleTypeTokens then .ok ((v, none), rest)
    else if ty = "BITSTRING" then
      match rest with
      | Token.basic "LBRACKET" _ :: rest2 => do
        let (e, rest3) ← parseIntExpr rest2
        match rest3 with
        | Token.basic "RBRACKET" _ :: rest4 => .ok ((v, some e), rest4)
        | _ => .error .parseError
      | _ => .error .parseError
    else if ty ∈ stringTypeTokens then
      match rest with
      | Token.basic "LBRACKET" _ :: rest2 => do
        let (e, rest3) ← parseIntExpr rest2
        match rest3 with
        | Token.basic "RBRACKET" _ :: rest4 => .ok ((v, some e), rest4)
        | _ => .error .parseError
      | rest' => .ok ((v, none), rest')
    else .error .parseError
  | _ => .error .parseError

/-- The modifier-validation loop of `p_field`: reject duplicates, `unsigned`
only on numeric types, base modifiers only on numeric types except `hex` on
`string`, at most one base modifier. -/
def processModifiers : List String → String → List String → Bool → Bool → Option String →
    Except ParseErr (Bool × Bool × Option String)
  | [], _, _, isKey, signed, base => .ok (isKey, signed, base)
  | m0 :: rest, typename, seen, isKey, signed, base =>
    let m := casefold m0
    if m ∈ seen then .error .parseError
    else
      let seen' := m :: seen
      if m = "key" then processModifiers rest typename seen' true signed base
      else if m = "unsigned" then
        if typename ∈ ["bitstring", "byte", "integer", "longint"] then
          processModifiers rest typename seen' isKey false base
        else .error .parseError
      else if m ∈ ["binary", "octal", "decimal", "hex", "literal"] then
        if (m = "hex" ∧ typename = "string")
            ∨ typename ∈ ["bitstring", "byte", "integer", "longint"] then
          match base with
          | none => processModifiers rest typename seen' isKey signed (some m)
          | some _ => .error .parseError
        else .error .parseError
      else .error .parseError

/-- The field-construction tail of `p_field`: lowercase the type name, map
`int` to `integer`, default base `decimal` (numeric) / format `literal`
(string), and build the `SimpleField`. -/
def mkSimpleField (modifiers : List String) (typename0 : String) (size : Option Expr)
    (value : Option Expr) : Except ParseErr Field := do
  let typenameL := casefold typename0
  let (isKey, signed, base) ← processModifiers modifiers typenameL [] false true none
  let typename := if typenameL = "int" then "integer" else typenameL
  if typename = "boolean" then .ok (.simpleField .booleanField value [] isKey)
  else if typename ∈ ["bitstring", "byte", "integer", "longint"] then
    .ok (.simpleField (.numericField signed (base.getD "decimal") typename size) value [] isKey)
  else if typename = "char" then .ok (.simpleField .charField value [] isKey)
  else if typename ∈ ["string", "cstring", "pstring", "wstring"] then
    .ok (.simpleField (.stringField (base.getD "literal") typename size) value [] isKey)
  else if typename = "point" then .ok (.simpleField .pointField value [] isKey)
  else if typename = "rect" then .ok (.simpleField .rectField value [] isKey)
  else .error .parseError

/-- `fields`: the declarations between the braces of a type statement (stray
semicolons dropped, labels kept, `fill`/`align`/`array`/`switch` outside the
fragment). -/
def parseFields : Nat → List Token → Except ParseErr (List Field × List Token)
  | 0, _ => .error .outOfFuel
  | fuel + 1, ts =>
    match ts with
    | Token.basic "RBRACE" v :: rest => .ok ([], Token.basic "RBRACE" v :: rest)
    | Token.basic "SEMICOLON" _ :: rest => parseFields fuel rest
    | Token.basic "IDENTIFIER" v :: Token.basic "COLON" _ :: rest => do
      let (fs, rest') ← parseFields fuel rest
      .ok (.label v :: fs, rest')
    | Token.basic ty v :: rest =>
      if ty ∈ ["FILL", "ALIGN", "ARRAY", "SWITCH", "WIDE"] then .error .unsupported
      else do
        let (mods, ts1) := takeModifiers (Token.basic ty v :: rest)
        let ((typename, size), ts2) ← parseSimpleType ts1
        match ts2 with
        | Token.basic "SEMICOLON" _ :: rest2 => do
          let f ← mkSimpleField mods typename size none
          let (fs, rest') ← parseFields fuel rest2
          .ok (f :: fs, rest')
        | Token.basic "ASSIGN" _ :: rest2 => do
          let (e, rest3) ← parseIntExpr rest2
          match rest3 with
          | Token.basic "SEMICOLON" _ :: rest4 => do
            let f ← mkSimpleField mods typename size (some e)
            let (fs, rest') ← parseFields fuel rest4
            .ok (f :: fs, rest')
          | _ => .error .parseError
        | _ => .error .unsupported
    | _ => .error .parseError

/-- `file_part`: top-level statements (`type_statement` and stray semicolons
in the fragment; all other statements report `unsupported`). -/
def parseStatements : Nat → List Token → Except ParseErr (List Stmt)
  | 0, _ => .error .outOfFuel
  | fuel + 1, ts =>
    match ts with
    | [] => .ok []
    | Token.basic "SEMICOLON" _ :: rest => parseStatements fuel rest
    | Token.basic "TYPE" _ :: rest => do
      let (ty, rest1) ← parseIntExpr rest
      let (spec, restB) ←
        (match rest1 with
         | Token.basic "LPAREN" _ :: rest2 => do
             let (idExpr, rest3) ← parseIntExpr rest2
             match rest3 with
             | Token.basic "RPAREN" _ :: rest4 =>
               Except.ok (TypeDefSpec.mk ty (some idExpr), rest4)
             | Token.basic "COLON" _ :: _ => Except.error ParseErr.unsupported
             | _ => Except.error ParseErr.parseError
         | _ => Except.ok (TypeDefSpec.mk ty none, rest1))
      match restB with
      | Token.basic "LBRACE" _ :: rest5 => do
        let (fs, rest6) ← parseFields fuel rest5
        match rest6 with
        | Token.basic "RBRACE" _ :: Token.basic "SEMICOLON" _ :: rest7 => do
          let stmts ← parseStatements fuel rest7
          .ok (Stmt.typeStmt spec (some fs) none :: stmts)
        | _ => .error .parseError
      | Token.basic "AS" _ :: _ => .error .unsupported
      | _ => .error .parseError
    | Token.basic ty _ :: _ =>
      if ty ∈ ["CHANGE", "DATA", "DELETE", "ENUM", "INCLUDE", "READ", "RESOURCE"] then
        .error .unsupported
      else .error .parseError
    | _ => .error .parseError

/-- `RezParser.parse_file` on a preprocessed token stream. -/
def parseFileTokens (ts : List Token) : Except ParseErr RezFile :=
  (parseStatements (ts.length + 8) ts).map RezFile.mk

/-! ### Lexer fragment (`lexer.py`)

PLY builds one master pattern: function rules in definition order
(`PP_INCLUDE, PP_DEFINE, PP_UNDEF, PP_IFDEF, NEWLINE, IDENTIFIER,
REZ_FUNCTION`), then string rules sorted by decreasing regex length; at each
position the first matching rule wins, and a regex alternation `A|B` prefers
`A`.  In particular `t_INTLIT_HEX = \$|0[Xx][0-9A-Fa-f]+` matches a bare `$`
via its first alternative.  The embedding covers every rule that can fire on
input without `#`-directives; `#` and `//`-style positions report
`unmodeled`. -/

/-- Errors of the lexer model: `noRule` is `t_error`'s `LexError`,
`unknownRezFunction` the explicit raise in `t_REZ_FUNCTION`, `unmodeled`
marks characters only reachable through the preprocessor-directive rules. -/
inductive LexErr where
  | unmodeled
  | unknownRezFunction
  | noRule
  | outOfFuel
deriving DecidableEq, Repr

/-- `RezLexer.rez_functions` (lowercase). -/
def rezFunctions : List String :=
  ["$$arrayindex", "$$attributes", "$$bitfield", "$$byte", "$$countof",
   "$$date", "$$day", "$$format", "$$hour", "$$id", "$$long", "$$minute",
   "$$month", "$$name", "$$packedsize", "$$read", "$$resource",
   "$$resourcesize", "$$second", "$$shell", "$$time", "$$type", "$$version",
   "$$weekday", "$$word", "$$year"]

/-- `[0-9A-Fa-f]`. -/
def isHexChar (c : Char) : Bool :=
  ('0' ≤ c ∧ c ≤ '9') ∨ ('a' ≤ c ∧ c ≤ 'f') ∨ ('A' ≤ c ∧ c ≤ 'F')

/-- `[A-Za-z_]`. -/
def isIdentStart (c : Char) : Bool :=
  ('a' ≤ c ∧ c ≤ 'z') ∨ ('A' ≤ c ∧ c ≤ 'Z') ∨ c = '_'

/-- `[A-Za-z0-9_]`. -/
def isIdentChar (c : Char) : Bool := isIdentStart c ∨ ('0' ≤ c ∧ c ≤ '9')

/-- `[0-9]`. -/
def isDigitChar (c : Char) : Bool := '0' ≤ c ∧ c ≤ '9'

/-- `[ \t]`. -/
def isSpaceTab (c : Char) : Bool := c = ' ' ∨ c = '\t'

/-- The regex of `t_INTLIT_HEX`, `\$|0[Xx][0-9A-Fa-f]+`: the first
alternative matches a lone `$`, so `$` followed by hex digits yields the
one-character lexeme `"$"`. -/
def matchIntlitHex (s : List Char) : Option (List Char × List Char) :=
  match s with
  | '$' :: rest => some (['$'], rest)
  | '0' :: x :: rest =>
    if x = 'x' ∨ x = 'X' then
      let ds := rest.takeWhile isHexChar
      if ds.isEmpty then none
      else some ('0' :: x :: ds, rest.dropWhile isHexChar)
    else none
  | _ => none

/-- The regex of `t_INTLIT_DEC`, `0|[1-9][0-9]*`. -/
def matchIntlitDec (s : List Char) : Option (List Char × List Char) :=
  match s with
  | '0' :: rest => some (['0'], rest)
  | c :: rest =>
    if '1' ≤ c ∧ c ≤ '9' then
      some (c :: rest.takeWhile isDigitChar, rest.dropWhile isDigitChar)
    else none
  | [] => none

/-- The regex of `t_INTLIT_BIN`, `0[Bb][01]+`. -/
def matchIntlitBin (s : List Char) : Option (List Char × List Char) :=
  match s with
  | '0' :: b :: rest =>
    if b = 'b' ∨ b = 'B' then
      let ds := rest.takeWhile (fun c => c = '0' ∨ c = '1')
      if ds.isEmpty then none
      else some ('0' :: b :: ds, rest.dropWhile (fun c => c = '0' ∨ c = '1'))
    else none
  | _ => none

/-- The regex of `t_INTLIT_OCT`, `0[0-7]+`. -/
def matchIntlitOct (s : List Char) : Option (List Char × List Char) :=
  match s with
  | '0' :: rest =>
    let ds := rest.takeWhile (fun c => '0' ≤ c ∧ c ≤ '7')
    if ds.isEmpty then none
    else some ('0' :: ds, rest.dropWhile (fun c => '0' ≤ c ∧ c ≤ '7'))
  | _ => none

/-- Quote-delimited literal body `(?:[^\\Q\n]|\\.)*Q` for quote `q` (used by
`t_STRINGLIT_TEXT` with `"` and `t_INTLIT_CHAR` with `'`); `.` does not match
a newline. -/
def matchQuotedBody (q : Char) : List Char → List Char → Option (List Char × List Char)
  | [], _ => none
  | '\\' :: c2 :: rest, acc =>
    if c2 = '\n' then none else matchQuotedBody q rest (c2 :: '\\' :: acc)
  | [c], acc => if c = q then some ((c :: acc).reverse, []) else none
  | c :: rest, acc =>
    if c = q then some ((c :: acc).reverse, rest)
    else if c = '\\' ∨ c = '\n' then none
    else matchQuotedBody q rest (c :: acc)

/-- Full quoted-literal match including the opening quote. -/
def matchQuoted (q : Char) (s : List Char) : Option (List Char × List Char) :=
  match s with
  | c :: rest =>
    if c = q then (matchQuotedBody q rest [q]).map (fun p => (p.1, p.2))
    else none
  | [] => none

/-- Pair part of `t_STRINGLIT_HEX`'s regex:
`(?:[0-9A-Fa-f][ \t]*[0-9A-Fa-f][ \t]*)*\"`. -/
def hexPairs : Nat → List Char → Option (List Char × List Char)
  | 0, _ => none
  | fuel + 1, s =>
    match s with
    | '"' :: rest => some (['"'], rest)
    | c1 :: rest1 =>
      if isHexChar c1 then
        let sp1 := rest1.takeWhile isSpaceTab
        let r2 := rest1.dropWhile isSpaceTab
        match r2 with
        | c2 :: rest2 =>
          if isHexChar c2 then
            let sp2 := rest2.takeWhile isSpaceTab
            let r3 := rest2.dropWhile isSpaceTab
            (hexPairs fuel r3).map (fun p => (c1 :: sp1 ++ c2 :: sp2 ++ p.1, p.2))
          else none
        | [] => none
      else none
    | [] => none

/-- `t_STRINGLIT_HEX` after the leading `$"`. -/
def matchStringHexBody (s : List Char) : Option (List Char × List Char) :=
  let sp := s.takeWhile isSpaceTab
  (hexPairs (s.length + 1) (s.dropWhile isSpaceTab)).map
    (fun p => ('$' :: '"' :: sp ++ p.1, p.2))

/-- Two-character operator rules (regex length 2–4; all tried before the
one-character rules, which have strictly shorter regexes). -/
def twoCharOps : List ((Char × Char) × String) :=
  [(('&', '&'), "BOOLAND"), (('=', '='), "EQUAL"), (('>', '='), "GREATEREQUAL"),
   (('<', '='), "LESSEQUAL"), (('!', '='), "NOTEQUAL"), (('<', '<'), "SHIFTLEFT"),
   (('>', '>'), "SHIFTRIGHT"), (('|', '|'), "BOOLOR")]

/-- One-character operator rules. -/
def oneCharOps : List (Char × String) :=
  [('{', "LBRACE"), ('}', "RBRACE"), ('[', "LBRACKET"), (']', "RBRACKET"),
   ('(', "LPAREN"), (')', "RPAREN"), (';', "SEMICOLON"), (':', "COLON"),
   (',', "COMMA"), ('=', "ASSIGN"), ('+', "PLUS"), ('-', "MINUS"),
   ('*', "MULTIPLY"), ('/', "DIVIDE"), ('%', "MODULO"), ('&', "BITAND"),
   ('|', "BITOR"), ('^', "BITXOR"), ('~', "BITNOT"), ('<', "LESS"),
   ('>', "GREATER"), ('!', "BOOLNOT")]

/-- Symbol-rule dispatch (everything that is not a directive, newline,
identifier, whitespace or comment), in the master-pattern order. -/
def lexSym (s : List Char) : Except LexErr (Token × List Char) :=
  match s with
  | '$' :: '$' :: rest =>
    if isIdentStart (rest.headD ' ') then
      let lexm := rest.takeWhile isIdentChar
      let v := String.mk ('$' :: '$' :: lexm)
      if casefold v ∈ rezFunctions then
        .ok (Token.basic ("FUN_" ++ upperStr (String.mk lexm)) v, rest.dropWhile isIdentChar)
      else .error .unknownRezFunction
    else .ok (Token.basic "INTLIT_HEX" "$", '$' :: rest)
  | '$' :: '"' :: rest =>
    match matchStringHexBody rest with
    | some (lexm, r) => .ok (Token.basic "STRINGLIT_HEX" (String.mk lexm), r)
    | none => .ok (Token.basic "INTLIT_HEX" "$", '"' :: rest)
  | '$' :: rest => .ok (Token.basic "INTLIT_HEX" "$", rest)
  | '"' :: rest =>
    match matchQuoted '"' ('"' :: rest) with
    | some (lexm, r) => .ok (Token.basic "STRINGLIT_TEXT" (String.mk lexm), r)
    | none => .error .noRule
  | '\'' :: rest =>
    match matchQuoted '\'' ('\'' :: rest) with
    | some (lexm, r) => .ok (Token.basic "INTLIT_CHAR" (String.mk lexm), r)
    | none => .error .noRule
  | c :: rest =>
    if isDigitChar c then
      match matchIntlitHex (c :: rest) with
      | some (lexm, r) => .ok (Token.basic "INTLIT_HEX" (String.mk lexm), r)
      | none =>
        match matchIntlitDec (c :: rest) with
        | some (lexm, r) => .ok (Token.basic "INTLIT_DEC" (String.mk lexm), r)
        | none =>
          match matchIntlitBin (c :: rest) with
          | some (lexm, r) => .ok (Token.basic "INTLIT_BIN" (String.mk lexm), r)
          | none =>
            match matchIntlitOct (c :: rest) with
            | some (lexm, r) => .ok (Token.basic "INTLIT_OCT" (String.mk lexm), r)
            | none => .error .noRule
    else
      match rest with
      | c2 :: rest2 =>
        match (twoCharOps.filter (fun p => p.1.1 = c ∧ p.1.2 = c2)).head? with
        | some p => .ok (Token.basic p.2 (String.mk [c, c2]), rest2)
        | none =>
          match (oneCharOps.filter (fun p => p.1 = c)).head? with
          | some p => .ok (Token.basic p.2 (String.mk [c]), c2 :: rest2)
          | none => .error .noRule
      | [] =>
        match (oneCharOps.filter (fun p => p.1 = c)).head? with
        | some p => .ok (Token.basic p.2 (String.mk [c]), [])
        | none => .error .noRule
  | [] => .error .noRule

/-- Skip a `/* … */` block comment body (after the opening two characters);
`none` when unterminated (then the regex does not match and `/` lexes as
`DIVIDE`). -/
def skipBlockComment : List Char → Option (List Char)
  | '*' :: '/' :: rest => some rest
  | '*' :: c :: rest => skipBlockComment (c :: rest)
  | _ :: rest => skipBlockComment rest
  | [] => none

/-- The lexer loop (`RezLexer.token` until exhaustion) on directive-free
input: newline, identifier/keyword and `$$`-function rules first (function
rules precede all string rules), then whitespace and comments, then the
string rules via `lexSym` in decreasing-regex-length order. -/
def rezLex : Nat → List Char → Except LexErr (List Token)
  | 0, _ => .error .outOfFuel
  | fuel + 1, s =>
    match s with
    | [] => .ok []
    | c :: rest0 =>
      if c = '#' then .error .unmodeled
      else if c = '\n' then do
        let ts ← rezLex fuel rest0
        .ok (Token.basic "NEWLINE" "\n" :: ts)
      else if isIdentStart c then
        let lexm := (c :: rest0).takeWhile isIdentChar
        let rest := (c :: rest0).dropWhile isIdentChar
        let v := String.mk lexm
        let ty := if casefold v ∈ rezKeywords then upperStr v else "IDENTIFIER"
        do
          let ts ← rezLex fuel rest
          .ok (Token.basic ty v :: ts)
      else if isSpaceTab c then rezLex fuel rest0
      else if c = '/' then
        match rest0 with
        | '/' :: rest1 => rezLex fuel (rest1.dropWhile (fun x => ¬ x = '\n'))
        | '*' :: rest1 =>
          match skipBlockComment rest1 with
          | some rest2 => rezLex fuel rest2
          | none => do
            let ts ← rezLex fuel rest0
            .ok (Token.basic "DIVIDE" "/" :: ts)
        | _ => do
          let ts ← rezLex fuel rest0
          .ok (Token.basic "DIVIDE" "/" :: ts)
      else
        match lexSym (c :: rest0) with
        | .error e => .error e
        | .ok (t, rest) => do
          let ts ← rezLex fuel rest
          .ok (t :: ts)

/-- Tokenize a whole string (ample fuel: each emitted token or skipped run
consumes at least one character). -/
def rezLexString (s : String) : Except LexErr (List Token) :=
  rezLex (s.length + 1) s.toList

/-! ### `RezPreprocessor.state_for_include` (include-path resolution) -/

/-- `os.path.join(a, b)` for POSIX paths. -/
def joinPath (a b : String) : String :=
  if strStartsWith b "/" then b
  else if a = "" then b
  else if strEndsWith a "/" then a ++ b
  else a ++ "/" ++ b

/-- `os.path.split(p)` for POSIX paths: split at the last `/`, stripping
trailing slashes from the head unless it is all slashes. -/
def pySplit (p : String) : String × String :=
  let cs := p.toList
  match List.findIdx? (· = '/') cs.reverse with
  | none => ("", p)
  | some k =>
    let i := cs.length - k
    let head0 := cs.take i
    let tail := cs.drop i
    let head :=
      if head0.all (· = '/') then head0
      else (head0.reverse.dropWhile (· = '/')).reverse
    (String.mk head, String.mk tail)

/-- The configured search paths of the preprocessor. -/
structure IncludeConfig where
  includePath : List String
  sysIncludePath : List String
deriving DecidableEq, Repr

/-- Result of the search loop: file content plus the framework root when the
framework-style rewrite matched, or failure (`PreprocessError`). -/
inductive IncOutcome where
  | found (text : String) (framework : Option String)
  | notFound
deriving DecidableEq, Repr

/-- The `for dir in include_path` loop of `state_for_include`: try
`dir/name`, then the framework rewrite `A/B.r → A.framework/Headers/B.r`
(`os.path.split` always returns a pair, so the rewrite is attempted even for
bare names); first hit wins. -/
def searchIncludePath (fs : String → Option String) (name : String) :
    List String → IncOutcome
  | [] => .notFound
  | dir :: rest =>
    match fs (joinPath dir name) with
    | some text => .found text none
    | none =>
      let parts := pySplit name
      let fwdir := parts.1 ++ ".framework"
      match fs (joinPath (joinPath (joinPath dir fwdir) "Headers") parts.2) with
      | some text => .found text (some (joinPath dir fwdir))
      | none => searchIncludePath fs name rest

/-- `RezPreprocessor.state_for_include(name, angle)`.  The Python local
`include_path` is bound to `self.sys_include_path` itself (no copy), so the
`insert(0, …)` calls for the framework directories of the include stack
(`frameworks`, in stack order) and the `include_path[0:0] =
self.include_path` splice for quoted includes mutate the configured
`sys_include_path` in place; the returned configuration reflects this.  The
file system is abstracted as `fs : path → Option content`. -/
def state_for_include (fs : String → Option String) (frameworks : List (Option String))
    (cfg : IncludeConfig) (name : String) (angle : Bool) :
    IncludeConfig × IncOutcome :=
  let searchList0 := frameworks.foldl
    (fun acc fw =>
      match fw with
      | some f => joinPath f "Frameworks" :: acc
      | none => acc) cfg.sysIncludePath
  let searchList := if angle then searchList0 else cfg.includePath ++ searchList0
  ({ cfg with sysIncludePath := searchList }, searchIncludePath fs name searchList)

/-! ### Helper lemmas for the claims about conditional skipping and the
macro-expansion depth bound. -/

def skippableTok (m : MacroTable) (t : Token) : Prop :=
  ∃ ty v, t = Token.basic ty v ∧ ty ≠ "PP_IF" ∧ ty ≠ "PP_ELIF" ∧ ty ≠ "PP_ELSE" ∧
    ty ≠ "PP_ENDIF" ∧ (ty = "IDENTIFIER" → mlookup m (casefold v) = none)

theorem ppDispatch_skip (fuel : Nat) (ty v : String) (st : PPState)
    (hif : st.ifState ≠ "active")
    (h1 : ty ≠ "PP_IF") (h2 : ty ≠ "PP_ELIF") (h3 : ty ≠ "PP_ELSE") (h4 : ty ≠ "PP_ENDIF") :
    ppDispatch fuel (Token.basic ty v) st = .again st := by
  simp only [ppDispatch]
  rw [if_neg (by simp [h1, h2]), if_neg h3, if_neg h4,
    if_pos (show st.ifState ≠ "active" ∨ ty = "NEWLINE" ∨ ty = "PP_EMPTY" from Or.inl hif)]

theorem ppToken_skip_one (fuel : Nat) (st : PPState) (ty v : String) (rest : List Token)
    (hin : st.input = Token.basic ty v :: rest)
    (hexp : st.expansionStack = [])
    (hif : st.ifState ≠ "active")
    (hms : st.macroStack.length ≤ 100)
    (h1 : ty ≠ "PP_IF") (h2 : ty ≠ "PP_ELIF") (h3 : ty ≠ "PP_ELSE") (h4 : ty ≠ "PP_ENDIF")
    (h5 : ty = "IDENTIFIER" → mlookup st.macros (casefold v) = none) :
    ppToken (fuel + 1) st = ppToken fuel { st with input := rest } := by
  cases fuel with
  | zero => rfl
  | succ f =>
    have hyield : ∀ (stX : PPState), stX.ifState = st.ifState → stX.macroStack = st.macroStack →
        stX.macros = st.macros →
        handleTok true (Token.basic ty v) stX = .yield (some (Token.basic ty v)) stX := by
      intro stX hX1 hX2 hX3
      unfold handleTok
      by_cases hid : ty = "IDENTIFIER"
      · by_cases hw : st.ifState = "waiting"
        · rw [if_pos (by simp [Token.type, hid, hX1, hw])]
          rw [if_neg (by rw [hX2]; omega)]
          rw [Token.value, hX3, h5 hid]
        · rw [if_neg (by simp [Token.type, hid, hX1, hif, hw])]
      · rw [if_neg (by simp [Token.type, hid])]
    have hstep : tokenInternalStep true st
        = .yield (some (Token.basic ty v)) { st with input := rest } := by
      simp only [tokenInternalStep, hexp, hin]
      exact hyield _ rfl rfl rfl
    have hti : tokenInternal (f + 1) true st
        = .ok (some (Token.basic ty v), { st with input := rest }) := by
      unfold tokenInternal
      rw [hstep]
    show ppToken (f + 1 + 1) st = _
    unfold ppToken
    rw [hti]
    simp only [Bind.bind, Except.bind]
    rw [ppDispatch_skip (f + 1) ty v _ (by simpa using hif) h1 h2 h3 h4]
    rfl

theorem ppToken_skip_region (junk : List Token) :
    ∀ (fuel : Nat) (st : PPState) (rest : List Token),
    st.input = junk ++ rest →
    st.expansionStack = [] → st.ifState ≠ "active" → st.macroStack.length ≤ 100 →
    (∀ t ∈ junk, skippableTok st.macros t) →
    ppToken (fuel + junk.length) st = ppToken fuel { st with input := rest } := by
  induction junk with
  | nil =>
    intro fuel st rest hin hexp hif hms _
    simp only [List.nil_append] at hin
    have : ({ st with input := rest } : PPState) = st := by
      cases st; simp_all
    rw [this]
    simp
  | cons t tl ih =>
    intro fuel st rest hin hexp hif hms hjunk
    obtain ⟨ty, v, rfl, k1, k2, k3, k4, k5⟩ := hjunk t (by simp)
    rw [show fuel + (Token.basic ty v :: tl).length = (fuel + tl.length) + 1 by simp; omega]
    rw [ppToken_skip_one (fuel + tl.length) st ty v (tl ++ rest) (by simpa using hin)
        hexp hif hms k1 k2 k3 k4 k5]
    have := ih fuel ({ st with input := tl ++ rest }) rest (by simp) (by simpa using hexp)
      (by simpa using hif) (by simpa using hms)
      (by intro u hu; exact hjunk u (by simp [hu]))
    simpa using this

theorem handleTok_again (expand : Bool) (t : Token) (st st' : PPState)
    (h : handleTok expand t st = .again st') :
    st'.macroStack.length = st.macroStack.length + 1 ∧ st.macroStack.length ≤ 100 := by
  unfold handleTok at h
  by_cases hc : t.type = "IDENTIFIER" ∧ (st.ifState = "active" ∨ st.ifState = "waiting") ∧ expand = true
  · rw [if_pos (by tauto)] at h
    by_cases hd : st.macroStack.length > 100
    · rw [if_pos hd] at h
      cases h
    · rw [if_neg hd] at h
      cases hm : mlookup st.macros (casefold t.value) with
      | some repl =>
        rw [hm] at h
        injection h with h'
        subst h'
        simp
        omega
      | none =>
        rw [hm] at h
        cases h
  · rw [if_neg (by tauto)] at h
    cases h

theorem step_macroStack_bound (expand : Bool) (st st' : PPState)
    (hlen : st.macroStack.length ≤ 101)
    (h : tokenInternalStep expand st = .again st') :
    st'.macroStack.length ≤ 101 := by
  cases hexp : st.expansionStack with
  | nil =>
    cases hin : st.input with
    | nil => simp [tokenInternalStep, hexp, hin] at h
    | cons t rest =>
      simp only [tokenInternalStep, hexp, hin] at h
      have := handleTok_again expand t _ _ h
      simp at this
      omega
  | cons e rest =>
    cases e with
    | expansionEnd =>
      simp only [tokenInternalStep, hexp] at h
      by_cases he : st.macroStack.isEmpty
      · rw [if_pos he] at h; cases h
      · rw [if_neg he] at h
        injection h with h'
        subst h'
        simp [List.length_dropLast]
        omega
    | tok t =>
      simp only [tokenInternalStep, hexp] at h
      have := handleTok_again expand t _ _ h
      simp at this
      omega



/-! ### Concrete inputs for the claims -/

/-- Token stream of `#if 1⏎x⏎#elif 0⏎y⏎#endif⏎`. -/
def c1Input : List Token :=
  [Token.basic "PP_IF" "#if", Token.basic "INTLIT_DEC" "1", Token.basic "NEWLINE" "\n",
   Token.basic "IDENTIFIER" "x", Token.basic "NEWLINE" "\n",
   Token.basic "PP_ELIF" "#elif", Token.basic "INTLIT_DEC" "0", Token.basic "NEWLINE" "\n",
   Token.basic "IDENTIFIER" "y", Token.basic "NEWLINE" "\n",
   Token.basic "PP_ENDIF" "#endif", Token.basic "NEWLINE" "\n"]

/-- Token stream of `enum { A = 5 };`. -/
def c3Input : List Token :=
  [Token.basic "ENUM" "enum", Token.basic "LBRACE" "\x7b",
   Token.basic "IDENTIFIER" "A", Token.basic "ASSIGN" "=", Token.basic "INTLIT_DEC" "5",
   Token.basic "RBRACE" "\x7d", Token.basic "SEMICOLON" ";"]

/-- Token stream of `enum { A, B=5, C, D };`. -/
def c4Input : List Token :=
  [Token.basic "ENUM" "enum", Token.basic "LBRACE" "\x7b",
   Token.basic "IDENTIFIER" "A", Token.basic "COMMA" ",",
   Token.basic "IDENTIFIER" "B", Token.basic "ASSIGN" "=",
   Token.basic "INTLIT_DEC" "5", Token.basic "COMMA" ",",
   Token.basic "IDENTIFIER" "C", Token.basic "COMMA" ",",
   Token.basic "IDENTIFIER" "D",
   Token.basic "RBRACE" "\x7d", Token.basic "SEMICOLON" ";"]

/-- Token stream of `#ifdef NOPE⏎junk junk⏎#endif⏎type 'X' { byte; };`. -/
def c5Input : List Token :=
  [Token.ppIfdefDir "ifdef" "NOPE", Token.basic "NEWLINE" "\n",
   Token.basic "IDENTIFIER" "junk", Token.basic "IDENTIFIER" "junk",
   Token.basic "NEWLINE" "\n",
   Token.basic "PP_ENDIF" "#endif", Token.basic "NEWLINE" "\n",
   Token.basic "TYPE" "type", Token.basic "INTLIT_CHAR" "'X'", Token.basic "LBRACE" "\x7b",
   Token.basic "BYTE" "byte", Token.basic "SEMICOLON" ";", Token.basic "RBRACE" "\x7d",
   Token.basic "SEMICOLON" ";"]

/-- The token stream the preprocessor emits for `c5Input`: exactly the
tokens of `type 'X' { byte; };` (newlines dropped). -/
def c5Emitted : List Token :=
  [Token.basic "TYPE" "type", Token.basic "INTLIT_CHAR" "'X'", Token.basic "LBRACE" "\x7b",
   Token.basic "BYTE" "byte", Token.basic "SEMICOLON" ";", Token.basic "RBRACE" "\x7d",
   Token.basic "SEMICOLON" ";"]

/-- Token stream of `#define A A⏎A`. -/
def c6Input : List Token :=
  [Token.ppDefine "A" [Token.basic "IDENTIFIER" "A"], Token.basic "NEWLINE" "\n",
   Token.basic "IDENTIFIER" "A"]

/-- Preprocessor state after `#define A A` has been processed: the macro
table maps `a` to `[A]` and the identifier `A` is the next input token. -/
def c6st1 : PPState :=
  { initPPState [Token.basic "IDENTIFIER" "A"] with
    macros := minsert initMacros "a" [Token.basic "IDENTIFIER" "A"] }

/-- The state reached from `c6st1` after 101 expansion iterations of
`_token_internal`: the macro stack holds 101 copies of `a` and no error has
been raised yet. -/
def c6st101 : PPState :=
  { c6st1 with
    input := []
    expansionStack :=
      ExpEntry.tok (Token.basic "IDENTIFIER" "A") :: List.replicate 101 ExpEntry.expansionEnd
    macroStack := List.replicate 101 "a" }

/-- The state reached from `c6st1` after a single expansion iteration. -/
def c6stA : PPState :=
  { c6st1 with
    input := []
    expansionStack :=
      [ExpEntry.tok (Token.basic "IDENTIFIER" "A"), ExpEntry.expansionEnd]
    macroStack := ["a"] }

/-- File system for the include-resolution claim: only `sys/f` exists. -/
def fs10 : String → Option String := fun p => if p = "sys/f" then some "T" else none

/-! ### Claim theorems -/

/-- Claim C1: the spec says that a `PP_ELIF` processed while the current
conditional state is `active` turns the state to `done`, so the `#elif`
branch is not emitted.  The code has no such transition: on
`#if 1 ⬝ x ⬝ #elif 0 ⬝ y ⬝ #endif` the state is still `active` after the
`#elif` and the token `y` of the `#elif` branch is emitted to the parser
(even though the `#elif` condition is false). -/
theorem claim_C1 :
    (ppAll 100 (initPPState c1Input)).map (fun p => (p.1, p.2.ifState)) =
      .ok ([Token.basic "IDENTIFIER" "x", Token.basic "IDENTIFIER" "y"], "active") := by
  rfl

/-- Claim C2: the spec says `$$BitField` sign-extends (two's complement), so
`$$Byte(0)` of a one-byte resource with data `0xFF` is `-1`.  The code's
sign fix subtracts `mask` = 2^len - 1 instead of 2^len (and its slice/shift
arithmetic drops an aligned final byte), so `$$Byte(0)` of data `FF` returns
`0`, not `-1`, the 4-bit field `0xF` also returns `0`, and `$$Word` of data
`FF FF` returns `255` instead of `-1`. -/
theorem claim_C2 :
    eval_byte [0xFF] 0 = some 0
    ∧ eval_byte [0xFF, 0xAB] 0 = some 0
    ∧ eval_bitfield [0xF0] 0 0 4 = some 0
    ∧ eval_word [0xFF, 0xFF] 0 = some 255 := by
  refine ⟨?_, ?_, ?_, ?_⟩ <;> rfl

/-- Claim C3: the spec says an explicit enum value is terminated by a
top-level `,` or `}`.  In the code only a top-level `,` terminates it: on
`enum { A = 5 };` the `}` and `;` are appended to the value buffer (the
nesting depth going to -1), the macro `a` is never defined and the enum
machine is stuck in state `equals` instead of reaching `end`. -/
theorem claim_C3 :
    (ppAll 100 (initPPState c3Input)).map
        (fun p => (mlookup p.2.macros "a", p.2.enumState, p.2.enumConstantDepth)) =
      .ok (none, "equals", -1) := by
  rfl

/-- Claim C4: after `enum { A, B=5, C, D };` the macro table maps `a ↦ 0`,
`b ↦ 5`, `c ↦ 6`, `d ↦ 7` (implicit values continue from the most recent
explicit value plus one; the first constant defaults to 0), and the enum
machine returns to `inactive`. -/
theorem claim_C4 :
    (ppAll 100 (initPPState c4Input)).map
        (fun p => (mlookup p.2.macros "a", mlookup p.2.macros "b",
                   mlookup p.2.macros "c", mlookup p.2.macros "d", p.2.enumState)) =
      .ok (some [Token.basic "INTLIT_DEC" "0"], some [Token.basic "INTLIT_DEC" "5"],
           some [Token.basic "INTLIT_DEC" "6"], some [Token.basic "INTLIT_DEC" "7"],
           "inactive") := by
  rfl

/-- Claim C5: tokens under a false conditional are never emitted.  First, on
the concrete `#ifdef NOPE ⬝ junk junk ⬝ #endif ⬝ type 'X' { byte; };` the
preprocessor emits exactly the tokens of the type statement, and parsing
them yields exactly one `Type` statement whose single field is a
`SimpleField` with numeric type `byte`, signed, base `decimal`.  Second, in
general: any run of non-directive tokens (identifiers not bound to macros
included) lying in the input while the conditional state is not `active` is
consumed without being emitted and without changing the behaviour — the
preprocessor continues exactly as if those tokens were not present. -/
theorem claim_C5 :
    ((ppAll 100 (initPPState c5Input)).map Prod.fst = .ok c5Emitted)
    ∧ (parseFileTokens c5Emitted =
        .ok ⟨[Stmt.typeStmt ⟨Expr.intLiteral 88, none⟩
          (some [Field.simpleField (FieldType.numericField true "decimal" "byte" none)
            none [] false]) none]⟩)
    ∧ (∀ (junk : List Token) (fuel : Nat) (st : PPState) (rest : List Token),
        st.input = junk ++ rest →
        st.expansionStack = [] → st.ifState ≠ "active" → st.macroStack.length ≤ 100 →
        (∀ t ∈ junk, skippableTok st.macros t) →
        ppToken (fuel + junk.length) st = ppToken fuel { st with input := rest }) := by
  refine ⟨by rfl, by rfl, ?_⟩
  intro junk fuel st rest h1 h2 h3 h4 h5
  exact ppToken_skip_region junk fuel st rest h1 h2 h3 h4 h5

/-- A concrete state for the C5 witness: conditional state `waiting`, one
junk identifier before the remaining input. -/
def c5WitnessState : PPState :=
  { initPPState [Token.basic "IDENTIFIER" "junk", Token.basic "IDENTIFIER" "z"] with
    ifState := "waiting", ifStack := ["active"] }

/-- Witness for C5: the general part applied at one junk identifier in a
`waiting` region. -/
theorem claim_C5_witness :
    ppToken (5 + ([Token.basic "IDENTIFIER" "junk"] : List Token).length) c5WitnessState =
      ppToken 5 { c5WitnessState with input := [Token.basic "IDENTIFIER" "z"] } :=
  claim_C5.2.2 [Token.basic "IDENTIFIER" "junk"] 5 c5WitnessState
    [Token.basic "IDENTIFIER" "z"] rfl rfl (by simp [c5WitnessState, initPPState]) (by simp [c5WitnessState, initPPState])
    (by
      intro t ht
      simp only [List.mem_singleton] at ht
      exact ⟨"IDENTIFIER", "junk", ht, by simp, by simp, by simp, by simp, fun _ => rfl⟩)

set_option maxRecDepth 100000 in
/-- Claim C6 (corrected): with `#define A A`, a use of `A` does raise
`PreprocessError` — but only on the 102nd expansion attempt: the whole run
errors out with `maxExpansionDepth`, the iteration reaches the error exactly
at step 102 from the post-define state, and (in general) a single loop
iteration never pushes the macro-name stack beyond 101 entries (a push
happens only when the stack has at most 100 entries). -/
theorem claim_C6 :
    (ppAll 300 (initPPState c6Input) = .error .maxExpansionDepth)
    ∧ (tokenInternalIter 102 true c6st1 = .inr (.error .maxExpansionDepth))
    ∧ (∀ (expand : Bool) (st st' : PPState), st.macroStack.length ≤ 101 →
        tokenInternalStep expand st = .again st' → st'.macroStack.length ≤ 101) := by
  refine ⟨by rfl, by rfl, ?_⟩
  intro expand st st' h1 h2
  exact step_macroStack_bound expand st st' h1 h2

/-- Witness for C6: the invariant applied at the concrete first expansion
step from the post-define state. -/
theorem claim_C6_witness : c6stA.macroStack.length ≤ 101 :=
  claim_C6.2.2 true c6st1 c6stA (by simp [c6st1, initPPState]) (by rfl)

set_option maxRecDepth 100000 in
/-- Counterexample to C6 as stated: after 101 expansions from the
post-define state the preprocessor is still running — no `PreprocessError`
has been raised — while the macro-name stack already holds 101 entries,
exceeding 100. -/
theorem claim_C6_counterexample :
    tokenInternalIter 101 true c6st1 = .inl c6st101
    ∧ c6st101.macroStack.length = 101 := by
  refine ⟨by rfl, by rfl⟩

/-- Reduction of the evaluator on a division of two literals. -/
theorem evalE_div_lit (x y : Int) :
    evalE (.divide (.intLiteral x) (.intLiteral y)) =
      if x < 0 then (pyFloorDiv (-x) |y|).map (fun q => -q) else pyFloorDiv x |y| := rfl

/-- Reduction of the evaluator on a modulo of two literals. -/
theorem evalE_mod_lit (x y : Int) :
    evalE (.modulo (.intLiteral x) (.intLiteral y)) =
      if x < 0 then (pyModOp (-x) |y|).map (fun q => -q) else pyModOp x |y| := rfl

/-- Claim C7: division and modulo sign laws of the evaluator: for `b ≠ 0`,
`(-a)/b` evaluates to the negation of `a/|b|` and `(-a)%b` to the negation
of `a%|b|` (truncation toward zero, sign from the dividend, divisor sign
ignored); a negative shift count yields 0; division and modulo by zero
raise. -/
theorem claim_C7 (a b : Int) (hb : b ≠ 0) :
    (evalE (.divide (.intLiteral (-a)) (.intLiteral b)) =
      (evalE (.divide (.intLiteral a) (.intLiteral |b|))).map (fun q => -q))
    ∧ (evalE (.modulo (.intLiteral (-a)) (.intLiteral b)) =
      (evalE (.modulo (.intLiteral a) (.intLiteral |b|))).map (fun q => -q))
    ∧ (∀ n : Int, n < 0 →
        evalE (.bitShiftLeft (.intLiteral a) (.intLiteral n)) = .ok 0
        ∧ evalE (.bitShiftRight (.intLiteral a) (.intLiteral n)) = .ok 0)
    ∧ evalE (.divide (.intLiteral a) (.intLiteral 0)) = .error .zeroDivision
    ∧ evalE (.modulo (.intLiteral a) (.intLiteral 0)) = .error .zeroDivision := by
  have habs : |b| ≠ 0 := abs_ne_zero.mpr hb
  refine ⟨?_, ?_, ?_, ?_, ?_⟩
  · rw [evalE_div_lit, evalE_div_lit, abs_abs]
    rcases lt_trichotomy a 0 with h | h | h
    · rw [if_neg (by omega), if_pos h]
      simp [pyFloorDiv, habs, Except.map]
    · subst h
      simp [pyFloorDiv, habs, Int.zero_fdiv, Except.map]
    · rw [if_pos (by omega), if_neg (by omega)]
      simp [pyFloorDiv, habs, Except.map]
  · rw [evalE_mod_lit, evalE_mod_lit, abs_abs]
    rcases lt_trichotomy a 0 with h | h | h
    · rw [if_neg (by omega), if_pos h]
      simp [pyModOp, habs, Except.map]
    · subst h
      simp [pyModOp, habs, Int.zero_fmod, Except.map]
    · rw [if_pos (by omega), if_neg (by omega)]
      simp [pyModOp, habs, Except.map]
  · intro n hn
    constructor
    · show Except.ok (if n < 0 then 0 else a * 2 ^ n.toNat) = _
      rw [if_pos hn]
    · show Except.ok (if n < 0 then 0 else a.fdiv (2 ^ n.toNat)) = _
      rw [if_pos hn]
  · rw [evalE_div_lit]
    rcases lt_trichotomy a 0 with h | h | h <;> simp [pyFloorDiv, h, Except.map]
  · rw [evalE_mod_lit]
    rcases lt_trichotomy a 0 with h | h | h <;> simp [pyModOp, h, Except.map]

/-- Witness for C7 at `a = 7`, `b = -3`, shift count `-1`. -/
theorem claim_C7_witness :
    ((-3 : Int) ≠ 0)
    ∧ (evalE (.divide (.intLiteral (-(7 : Int))) (.intLiteral (-3))) =
        (evalE (.divide (.intLiteral 7) (.intLiteral |(-3 : Int)|))).map (fun q => -q))
    ∧ evalE (.bitShiftLeft (.intLiteral 7) (.intLiteral (-1))) = .ok 0 :=
  ⟨by decide, (claim_C7 7 (-3) (by decide)).1,
   ((claim_C7 7 (-3) (by decide)).2.2.1 (-1) (by decide)).1⟩

/-- Claim C8: the spec says `$` followed by hex digits is one integer
literal.  The lexer regex `\$|0[Xx][0-9A-Fa-f]+` matches a lone `$` via its
first alternative, so `$FF` lexes as the two tokens `INTLIT_HEX "$"` and
`IDENTIFIER "FF"`; moreover `p_intlit` on the lexeme `"$"` hits
`int("", 16)`, an uncaught `ValueError`.  The `0x` spelling works and gives
`IntLiteral 255`. -/
theorem claim_C8 :
    rezLexString "$FF" = .ok [Token.basic "INTLIT_HEX" "$", Token.basic "IDENTIFIER" "FF"]
    ∧ matchIntlitHex "$FF".toList = some (['$'], ['F', 'F'])
    ∧ p_intlit "$" = .error .valueError
    ∧ p_intlit "0xFF" = .ok (.intLiteral 255) := by
  refine ⟨by rfl, by rfl, by rfl, by rfl⟩

/-- Claim C9: the spec implies `_unescape_string` terminates on every input.
On `"\0q"` (backslash, zero, then a character that is not a binary, decimal,
hex or octal marker) no branch of the loop body advances `lastpos`, the
iteration is the identity on the loop state, and the loop never terminates:
no amount of fuel makes the run finish. -/
theorem claim_C9 :
    (unescapeStep "\\0q".toList 0 [] = .again 0 [])
    ∧ (∀ fuel, unescapeRun fuel "\\0q".toList 0 [] = none) := by
  constructor
  · rfl
  · intro fuel
    induction fuel with
    | zero => rfl
    | succ n ih =>
      show unescapeRun (n + 1) "\\0q".toList 0 [] = none
      rw [unescapeRun, show unescapeStep "\\0q".toList 0 [] = .again 0 [] from rfl]
      exact ih

/-- Claim C10: the spec implies `state_for_include` leaves the configured
search paths unchanged.  The code aliases `self.sys_include_path` and
mutates it: after resolving a quoted include with user include path
`["inc"]`, the system include path has become `["inc", "sys"]`; and with a
framework include frame `Fw` on the stack, even an angle include prepends
`Fw/Frameworks` to the system include path. -/
theorem claim_C10 :
    state_for_include fs10 [] ⟨["inc"], ["sys"]⟩ "f" false =
      (⟨["inc"], ["inc", "sys"]⟩, .found "T" none)
    ∧ (state_for_include fs10 [some "Fw"] ⟨[], ["sys"]⟩ "f" true).1.sysIncludePath =
      ["Fw/Frameworks", "sys"] := by
  refine ⟨by rfl, by rfl⟩


end Rezparser
